import Mathlib

/-!
Verification of the MarklinSim MCP2515 SPI protocol engine
(`src/mcp2515/mcp_decoder.ts`) and the CS3 command dispatcher
(`src/mcp2515/cs3_handler.ts`).

The TypeScript source is shallowly embedded: the decoder's mutable class
state becomes an explicit `McpState` record, every `decode` step returns
the successor state together with the response byte, the optionally
decoded CAN frame, and the ordered list of interrupt-change callback
invocations it performs.  Machine bytes are `Nat` with explicit `% 256`
where the `Uint8Array` register file truncates; every input byte of the
SPI stream is a value in `0..255` (a `Buffer` octet), which the theorems
record as hypotheses where the result depends on it.
-/

/-- A decoded CAN frame, as in `mcp_decoder.ts` (`interface CanFrame`). -/
structure CanFrame where
  id : Nat
  eid : Nat
  dlc : Nat
  data : List Nat
deriving DecidableEq, Repr

-- MCP2515 SPI instruction opcodes
def INSTRUCTION_WRITE : Nat := 0x02
def INSTRUCTION_READ : Nat := 0x03
def INSTRUCTION_BIT_MODIFY : Nat := 0x05
def INSTRUCTION_READ_STATUS : Nat := 0xA0

-- TX buffer 0 start register
def TXB0_SIDH : Nat := 0x31

-- RX buffer 0 start register
def RXB0_SIDH : Nat := 0x61

-- Registers used for READ_STATUS computation
def CANINTE : Nat := 0x2B
def CANINTF : Nat := 0x2C
def TXB0CTRL : Nat := 0x30
def TXB1CTRL : Nat := 0x40
def TXB2CTRL : Nat := 0x50

-- CANINTF/CANINTE bit definitions
def RX0IF : Nat := 0x01
def RX1IF : Nat := 0x02
def TX0IF : Nat := 0x04
def TX1IF : Nat := 0x08
def TX2IF : Nat := 0x10

/-- The decoder's internal state tag (`const enum State`). -/
inductive SpiState where
  | idle
  | writeAddr
  | writeData
  | txHeader
  | txData
  | readAddr
  | readData
  | bitModifyAddr
  | bitModifyMask
  | bitModifyData
  | readStatusDummy
deriving DecidableEq, Repr

/-- The mutable fields of class `McpDecoder`.  The 256-entry `Uint8Array`
register file is a function from address to stored byte. -/
structure McpState where
  state : SpiState
  register : Nat
  bitModifyMask : Nat
  txHeader : List Nat
  txData : List Nat
  txDlc : Nat
  registers : Nat → Nat
  rxQueue : List CanFrame
  intPinAsserted : Bool

/-- The decoder's initial state: fresh class instance, all registers zero. -/
def initState : McpState where
  state := SpiState.idle
  register := 0
  bitModifyMask := 0
  txHeader := []
  txData := []
  txDlc := 0
  registers := fun _ => 0
  rxQueue := []
  intPinAsserted := false

/-- Store one byte into the register file.  `Uint8Array` semantics: callers
index with `& 0xFF` and the stored value is truncated to one byte. -/
def writeReg (regs : Nat → Nat) (addr val : Nat) : Nat → Nat :=
  fun a => if a = addr % 256 then val % 256 else regs a

/-- `McpDecoder.shouldTriggerInterrupt`: INT asserts when any enabled
interrupt flag is set, `(CANINTF & CANINTE) !== 0`. -/
def shouldTriggerInterrupt (s : McpState) : Bool :=
  (s.registers CANINTF) &&& (s.registers CANINTE) ≠ 0

/-- `McpDecoder.updateIntPin`: recompute the INT line and, on change,
record an invocation of the interrupt-change callback. -/
def updateIntPin (s : McpState) : McpState × List Bool :=
  let shouldAssert := shouldTriggerInterrupt s
  if shouldAssert ≠ s.intPinAsserted then
    ({ s with intPinAsserted := shouldAssert }, [shouldAssert])
  else
    (s, [])

/-- The data-copy loop of `loadFrameToRxb0`: for `i < dlc`, store
`data[i]` at `RXB0_SIDH + 5 + i` (a missing entry reads as `undefined`,
which `Uint8Array` stores as 0, hence `getD _ 0`). -/
def storeRxData (regs : Nat → Nat) (data : List Nat) : Nat → Nat → (Nat → Nat)
  | 0, _ => regs
  | n + 1, i => storeRxData (writeReg regs (RXB0_SIDH + 5 + i) (data.getD i 0)) data n (i + 1)

/-- The register stores of `loadFrameToRxb0`: the RXB0 header and data
bytes, then `CANINTF.RX0IF`. -/
def loadRegs (regs : Nat → Nat) (frame : CanFrame) : Nat → Nat :=
  let r0 := writeReg regs RXB0_SIDH ((frame.id >>> 3) &&& 0xFF)
  let r1 := writeReg r0 (RXB0_SIDH + 1)
      (((frame.id &&& 0x07) <<< 5) ||| 0x08 ||| ((frame.eid >>> 16) &&& 0x03))
  let r2 := writeReg r1 (RXB0_SIDH + 2) ((frame.eid >>> 8) &&& 0xFF)
  let r3 := writeReg r2 (RXB0_SIDH + 3) (frame.eid &&& 0xFF)
  let r4 := writeReg r3 (RXB0_SIDH + 4) frame.dlc
  let r5 := storeRxData r4 frame.data frame.dlc 0
  writeReg r5 CANINTF ((r5 CANINTF) ||| RX0IF)

/-- `McpDecoder.loadFrameToRxb0`: encode a CAN frame into the RXB0
registers, set `CANINTF.RX0IF`, and update the INT pin. -/
def loadFrameToRxb0 (s : McpState) (frame : CanFrame) : McpState × List Bool :=
  updateIntPin { s with registers := loadRegs s.registers frame }

/-- `McpDecoder.tryLoadNextRxFrame`: if RXB0 is free (`CANINTF.RX0IF`
clear) and the queue is non-empty, load the next frame. -/
def tryLoadNextRxFrame (s : McpState) : McpState × List Bool :=
  if (s.registers CANINTF) &&& RX0IF = 0 then
    match s.rxQueue with
    | [] => (s, [])
    | f :: rest => loadFrameToRxb0 { s with rxQueue := rest } f
  else
    (s, [])

/-- `McpDecoder.queueRxFrames`: append the frames and attempt a load. -/
def queueRxFrames (s : McpState) (frames : List CanFrame) : McpState × List Bool :=
  tryLoadNextRxFrame { s with rxQueue := s.rxQueue ++ frames }

/-- `McpDecoder.computeStatus`: assemble the READ_STATUS response byte. -/
def computeStatus (s : McpState) : Nat :=
  let canintf := s.registers CANINTF
  ((canintf >>> 0) &&& 1)
    ||| (((canintf >>> 1) &&& 1) <<< 1)
    ||| ((((s.registers TXB0CTRL) >>> 3) &&& 1) <<< 2)
    ||| (((canintf >>> 2) &&& 1) <<< 3)
    ||| ((((s.registers TXB1CTRL) >>> 3) &&& 1) <<< 4)
    ||| (((canintf >>> 3) &&& 1) <<< 5)
    ||| ((((s.registers TXB2CTRL) >>> 3) &&& 1) <<< 6)
    ||| (((canintf >>> 4) &&& 1) <<< 7)

/-- Result of one `decode` step: the SPI response byte, the optionally
surfaced CAN frame, the successor state, and the interrupt-change
callback invocations performed during the step, in order. -/
structure StepOut where
  rx : Nat
  frame : Option CanFrame
  st : McpState
  intEvents : List Bool

/-- `McpDecoder.isInstruction`. -/
def isInstruction (b : Nat) : Bool :=
  b = INSTRUCTION_WRITE || b = INSTRUCTION_READ
    || b = INSTRUCTION_BIT_MODIFY || b = INSTRUCTION_READ_STATUS

/-- `McpDecoder.handleInstruction`: classify an instruction opcode (any
other byte leaves the state unchanged). -/
def handleInstruction (s : McpState) (txByte : Nat) : StepOut :=
  let st :=
    if txByte = INSTRUCTION_WRITE then SpiState.writeAddr
    else if txByte = INSTRUCTION_READ then SpiState.readAddr
    else if txByte = INSTRUCTION_BIT_MODIFY then SpiState.bitModifyAddr
    else if txByte = INSTRUCTION_READ_STATUS then SpiState.readStatusDummy
    else s.state
  ⟨0, none, { s with state := st }, []⟩

/-- `McpDecoder.emitCanFrame`: decode the accumulated TX buffer header and
data into a CAN frame, set `CANINTF.TX0IF`, update the INT pin, and
return to Idle. -/
def emitCanFrame (s : McpState) : StepOut :=
  let sidh := s.txHeader.getD 0 0
  let sidl := s.txHeader.getD 1 0
  let eid8 := s.txHeader.getD 2 0
  let eid0 := s.txHeader.getD 3 0
  let frame : CanFrame :=
    { id := (sidh <<< 3) ||| ((sidl >>> 5) &&& 0x07)
      eid := ((sidl &&& 0x03) <<< 16) ||| (eid8 <<< 8) ||| eid0
      dlc := s.txDlc
      data := s.txData }
  let regs := writeReg s.registers CANINTF ((s.registers CANINTF) ||| TX0IF)
  let p := updateIntPin { s with registers := regs, state := SpiState.idle }
  ⟨0, some frame, p.1, p.2⟩

/-- `McpDecoder.decode`: process a single TX byte of the SPI stream. -/
def decode (s : McpState) (txByte : Nat) : StepOut :=
  match s.state with
  | SpiState.idle => handleInstruction s txByte
  | SpiState.writeAddr =>
      if txByte = TXB0_SIDH then
        ⟨0, none, { s with register := txByte, state := SpiState.txHeader, txHeader := [] }, []⟩
      else
        ⟨0, none, { s with register := txByte, state := SpiState.writeData }, []⟩
  | SpiState.writeData =>
      if isInstruction txByte then
        handleInstruction s txByte
      else
        let r1 := writeReg s.registers (s.register &&& 0xFF) txByte
        -- Auto-clear TXREQ when the kernel requests transmit: simulates the
        -- MCP2515 completing the transmission instantly.
        let r2 :=
          if s.register = TXB0CTRL ∧ txByte &&& 0x08 ≠ 0 then
            writeReg r1 TXB0CTRL ((r1 TXB0CTRL) &&& 0xF7)
          else r1
        let s1 := { s with registers := r2 }
        -- When the kernel writes CANINTF, update the INT pin and load the
        -- next queued RX frame.
        let p :=
          if s.register &&& 0xFF = CANINTF then
            let u := updateIntPin s1
            let t := tryLoadNextRxFrame u.1
            (t.1, u.2 ++ t.2)
          else (s1, ([] : List Bool))
        ⟨0, none, { p.1 with register := (s.register + 1) % 256 }, p.2⟩
  | SpiState.txHeader =>
      let r := writeReg s.registers ((TXB0_SIDH + s.txHeader.length) &&& 0xFF) txByte
      let hdr := s.txHeader ++ [txByte]
      let s1 := { s with registers := r, txHeader := hdr }
      if hdr.length = 5 then
        let dlc := hdr.getD 4 0 &&& 0x0F
        if dlc = 0 then
          emitCanFrame { s1 with txDlc := dlc }
        else
          ⟨0, none, { s1 with txDlc := dlc, txData := [], state := SpiState.txData }, []⟩
      else
        ⟨0, none, s1, []⟩
  | SpiState.txData =>
      let r := writeReg s.registers ((TXB0_SIDH + 5 + s.txData.length) &&& 0xFF) txByte
      let d := s.txData ++ [txByte]
      let s1 := { s with registers := r, txData := d }
      if d.length = s.txDlc then
        emitCanFrame s1
      else
        ⟨0, none, s1, []⟩
  | SpiState.readAddr =>
      ⟨0, none, { s with register := txByte, state := SpiState.readData }, []⟩
  | SpiState.readData =>
      if isInstruction txByte then
        handleInstruction s txByte
      else
        let val := s.registers (s.register &&& 0xFF)
        ⟨val, none, { s with register := (s.register + 1) % 256 }, []⟩
  | SpiState.bitModifyAddr =>
      ⟨0, none, { s with register := txByte, state := SpiState.bitModifyMask }, []⟩
  | SpiState.bitModifyMask =>
      ⟨0, none, { s with bitModifyMask := txByte, state := SpiState.bitModifyData }, []⟩
  | SpiState.bitModifyData =>
      let addr := s.register &&& 0xFF
      let oldVal := s.registers addr
      -- `oldVal & ~mask` on byte-valued registers: clear the mask's low
      -- eight bits (the register file never stores a value ≥ 256).
      let newVal := (oldVal &&& (0xFF ^^^ (s.bitModifyMask &&& 0xFF)))
                      ||| (txByte &&& s.bitModifyMask)
      let s1 := { s with registers := writeReg s.registers addr newVal }
      let p :=
        if addr = CANINTF then
          let u := updateIntPin s1
          let t := tryLoadNextRxFrame u.1
          (t.1, u.2 ++ t.2)
        else (s1, ([] : List Bool))
      ⟨0, none, { p.1 with state := SpiState.idle }, p.2⟩
  | SpiState.readStatusDummy =>
      ⟨computeStatus s, none, { s with state := SpiState.idle }, []⟩

/-- `McpDecoder.setRegister`: direct register store (test/bootstrap hook). -/
def setRegister (s : McpState) (addr value : Nat) : McpState :=
  { s with registers := writeReg s.registers addr value }

/-- Feed a list of bytes through `decode`, collecting the surfaced CAN
frames in order (as `mcp_io.ts` does on each received buffer). -/
def runCollect (s : McpState) (bytes : List Nat) : McpState × List CanFrame :=
  match bytes with
  | [] => (s, [])
  | b :: rest =>
      let o := decode s b
      let r := runCollect o.st rest
      (r.1, o.frame.toList ++ r.2)

/-!
The CS3 command dispatcher (`cs3_handler.ts`, `Cs3Handler`).  Calls into
the external `MarklinController` are reified as a list of `ControllerCall`
values in the order the handler performs them; the handler's only own
state, the train-light map, is threaded explicitly (a JS `Map` read with
`get(k) ?? false`, modelled as a total function defaulting to `false`).
-/

-- CS3 command codes
def SYSTEM_CMD : Nat := 0x00
def SPEED_CMD : Nat := 0x04
def DIRECTION_CMD : Nat := 0x05
def LIGHT_CMD : Nat := 0x06
def SWITCH_CMD : Nat := 0x0B
def SENSOR_CMD : Nat := 0x11

-- System sub-commands
def STOP_SUBCMD : Nat := 0x00
def GO_SUBCMD : Nat := 0x01
def HALT_SUBCMD : Nat := 0x02

def CS3_MAX_SPEED : Int := 1000
def SIM_MAX_SPEED : Int := 14

/-- `SwitchDirection` from `model/switch.ts`: `Straight = 0`, `Curve = 1`. -/
inductive SwitchDirection where
  | Straight
  | Curve
deriving DecidableEq, Repr

/-- One call into the `MarklinController` interface. -/
inductive ControllerCall where
  | stop
  | go
  | halt
  | setTrainSpeed (trainId : Nat) (speed : Int) (light : Bool)
  | reverseTrain (trainId : Nat)
  | changeSwitchDirection (switchId : Int) (dir : SwitchDirection)
deriving DecidableEq, Repr

/-- `decodeCommand`: the CS3 command is the top 7 bits of `id` and bit 17
of `eid`. -/
def decodeCommand (frame : CanFrame) : Nat :=
  ((frame.id <<< 1) &&& 0xFE) ||| ((frame.eid >>> 17) &&& 0x01)

/-- `makeAck`: copy the frame and set the response marker, bit 16 of `eid`. -/
def makeAck (frame : CanFrame) : CanFrame :=
  { id := frame.id
    eid := frame.eid ||| 0x10000
    dlc := frame.dlc
    data := frame.data }

/-- `readId`: 32-bit big-endian id from `data[0..3]` (the JS `>>> 0`
reinterprets the signed 32-bit `|` result as unsigned; on byte-valued
entries the result is the plain big-endian value). -/
def readId (data : List Nat) : Nat :=
  ((data.getD 0 0) <<< 24) ||| ((data.getD 1 0) <<< 16)
    ||| ((data.getD 2 0) <<< 8) ||| (data.getD 3 0)

/-- `Math.round` of a rational: round half toward positive infinity.  The
double-precision evaluation in `cs3SpeedToSim` is exact with respect to
this rounding (arguments are at least 1/1000 away from any half unless
exactly representable). -/
def jsRound (q : ℚ) : Int := ⌊q + 1 / 2⌋

/-- `cs3SpeedToSim`: map a CS3 speed (0..1000) to a simulator speed
(0..14). -/
def cs3SpeedToSim (cs3Speed : Int) : Int :=
  if cs3Speed ≤ 0 then 0
  else if cs3Speed ≥ CS3_MAX_SPEED then SIM_MAX_SPEED
  else jsRound ((cs3Speed : ℚ) / (CS3_MAX_SPEED : ℚ) * (SIM_MAX_SPEED : ℚ))

/-- `decodeSwitchId`. -/
def decodeSwitchId (encodedId : Nat) : Int :=
  (encodedId : Int) - 0x3000 + 1

/-- `interface HandleResult`. -/
structure HandleResult where
  immediate : List CanFrame
  delayed : List CanFrame
deriving DecidableEq, Repr

/-- Everything one `handleTxFrame` call produces: the dispatch result,
the controller calls made, and the updated train-light map. -/
structure Cs3Out where
  result : HandleResult
  calls : List ControllerCall
  trainLights : Nat → Bool

/-- `Cs3Handler.handleSystem`. -/
def handleSystem (frame : CanFrame) (ack : CanFrame) (lights : Nat → Bool) : Cs3Out :=
  let subcmd := frame.data.getD 4 0
  let calls :=
    if subcmd = STOP_SUBCMD then [ControllerCall.stop]
    else if subcmd = GO_SUBCMD then [ControllerCall.go]
    else if subcmd = HALT_SUBCMD then [ControllerCall.halt]
    else []
  ⟨⟨[ack], []⟩, calls, lights⟩

/-- `Cs3Handler.handleSpeed`. -/
def handleSpeed (frame : CanFrame) (ack : CanFrame) (lights : Nat → Bool) : Cs3Out :=
  let trainId := readId frame.data
  if frame.dlc ≤ 4 then
    ⟨⟨[ack], []⟩, [], lights⟩
  else
    let cs3Speed := ((frame.data.getD 4 0) <<< 8) ||| (frame.data.getD 5 0)
    let simSpeed := cs3SpeedToSim (cs3Speed : Int)
    let light := lights trainId
    ⟨⟨[ack], []⟩, [ControllerCall.setTrainSpeed trainId simSpeed light], lights⟩

/-- `Cs3Handler.handleDirection`. -/
def handleDirection (frame : CanFrame) (ack : CanFrame) (lights : Nat → Bool) : Cs3Out :=
  ⟨⟨[ack], []⟩, [ControllerCall.reverseTrain (readId frame.data)], lights⟩

/-- `Cs3Handler.handleLight`. -/
def handleLight (frame : CanFrame) (ack : CanFrame) (lights : Nat → Bool) : Cs3Out :=
  let trainId := readId frame.data
  let lightOn := frame.data.getD 5 0 ≠ 0
  ⟨⟨[ack], []⟩, [], fun t => if t = trainId then lightOn else lights t⟩

/-- `Cs3Handler.handleSwitch`.  Kernel encodes CURVED = 0, STRAIGHT = 1 in
`data[4]`; a truthy position maps to `Straight`. -/
def handleSwitch (frame : CanFrame) (ack : CanFrame) (lights : Nat → Bool) : Cs3Out :=
  let encodedId := readId frame.data
  let switchId := decodeSwitchId encodedId
  let position := frame.data.getD 4 0
  let direction := if position ≠ 0 then SwitchDirection.Straight else SwitchDirection.Curve
  ⟨⟨[ack], [ack]⟩, [ControllerCall.changeSwitchDirection switchId direction], lights⟩

/-- `Cs3Handler.handleTxFrame`: dispatch on the decoded command. -/
def handleTxFrame (frame : CanFrame) (lights : Nat → Bool) : Cs3Out :=
  let command := decodeCommand frame
  let ack := makeAck frame
  if command = SYSTEM_CMD then handleSystem frame ack lights
  else if command = SPEED_CMD then handleSpeed frame ack lights
  else if command = DIRECTION_CMD then handleDirection frame ack lights
  else if command = LIGHT_CMD then handleLight frame ack lights
  else if command = SWITCH_CMD then handleSwitch frame ack lights
  else ⟨⟨[ack], []⟩, [], lights⟩

/-!
Shared helper lemmas: byte masks as `%`, disjoint `|||` as `+`, the
behaviour of `updateIntPin` and `tryLoadNextRxFrame`.
-/

lemma and_255_eq_mod (x : Nat) : x &&& 0xFF = x % 256 := by
  have h := Nat.and_pow_two_sub_one_eq_mod x 8
  norm_num at h
  exact h

lemma and_15_eq_mod (x : Nat) : x &&& 0x0F = x % 16 := by
  have h := Nat.and_pow_two_sub_one_eq_mod x 4
  norm_num at h
  exact h

lemma and_7_eq_mod (x : Nat) : x &&& 0x07 = x % 8 := by
  have h := Nat.and_pow_two_sub_one_eq_mod x 3
  norm_num at h
  exact h

lemma and_3_eq_mod (x : Nat) : x &&& 0x03 = x % 4 := by
  have h := Nat.and_pow_two_sub_one_eq_mod x 2
  norm_num at h
  exact h

lemma lor_of_lt (k : Nat) {a b : Nat} (ha : a % 2 ^ k = 0) (hb : b < 2 ^ k) :
    a ||| b = a + b := by
  have hq : 2 ^ k * (a / 2 ^ k) = a := Nat.mul_div_cancel' (Nat.dvd_of_mod_eq_zero ha)
  rw [← hq]
  apply Nat.eq_of_testBit_eq
  intro j
  rw [Nat.testBit_or, Nat.testBit_mul_pow_two_add _ hb j, Nat.testBit_mul_pow_two]
  by_cases hj : j < k
  · simp [hj, Nat.not_le_of_lt hj]
  · have hbj : b.testBit j = false :=
      Nat.testBit_lt_two_pow
        (lt_of_lt_of_le hb (Nat.pow_le_pow_right (by norm_num) (Nat.le_of_not_lt hj)))
    simp [hj, hbj, Nat.le_of_not_lt hj]

lemma shiftLeft_lor_of_lt {a b k : Nat} (hb : b < 2 ^ k) :
    (a <<< k) ||| b = a * 2 ^ k + b := by
  rw [Nat.shiftLeft_eq]
  exact lor_of_lt k (Nat.mul_mod_left a (2 ^ k)) hb

lemma getD_lt_of_forall {l : List Nat} (h : ∀ x ∈ l, x < 256) (i : Nat) :
    l.getD i 0 < 256 := by
  induction l generalizing i with
  | nil => simp [List.getD]
  | cons a t ih =>
      cases i with
      | zero => exact h a (by simp)
      | succ n =>
          simp only [List.getD_cons_succ]
          exact ih (fun x hx => h x (by simp [hx])) n

lemma updateIntPin_fst (s : McpState) :
    (updateIntPin s).1 = { s with intPinAsserted := shouldTriggerInterrupt s } := by
  unfold updateIntPin
  by_cases h : shouldTriggerInterrupt s = s.intPinAsserted
  · simp only [h, ne_eq, not_true_eq_false, if_false]
  · simp [h]

lemma updateIntPin_snd (s : McpState) :
    (updateIntPin s).2 =
      if shouldTriggerInterrupt s = s.intPinAsserted then []
      else [shouldTriggerInterrupt s] := by
  unfold updateIntPin
  by_cases h : shouldTriggerInterrupt s = s.intPinAsserted <;> simp [h]

lemma tryLoad_of_flag {s : McpState} (h : (s.registers CANINTF) &&& RX0IF ≠ 0) :
    tryLoadNextRxFrame s = (s, []) := by
  unfold tryLoadNextRxFrame
  rw [if_neg h]

lemma tryLoad_of_empty {s : McpState} (hq : s.rxQueue = []) :
    tryLoadNextRxFrame s = (s, []) := by
  unfold tryLoadNextRxFrame
  rw [hq]
  split <;> rfl

lemma tryLoad_of_cons {s : McpState} {f : CanFrame} {rest : List CanFrame}
    (h : (s.registers CANINTF) &&& RX0IF = 0) (hq : s.rxQueue = f :: rest) :
    tryLoadNextRxFrame s = loadFrameToRxb0 { s with rxQueue := rest } f := by
  unfold tryLoadNextRxFrame
  rw [if_pos h, hq]

lemma shouldTrigger_registers {s t : McpState} (h : s.registers = t.registers) :
    shouldTriggerInterrupt s = shouldTriggerInterrupt t := by
  simp [shouldTriggerInterrupt, h]

lemma loadFrameToRxb0_def (s : McpState) (f : CanFrame) :
    loadFrameToRxb0 s f = updateIntPin { s with registers := loadRegs s.registers f } :=
  rfl

lemma updateIntPin_events_spec (s : McpState) :
    (updateIntPin s).2.length ≤ 1 ∧
    (updateIntPin s).2.getLastD (shouldTriggerInterrupt (updateIntPin s).1) =
      shouldTriggerInterrupt (updateIntPin s).1 := by
  have h1 := updateIntPin_fst s
  have h2 := updateIntPin_snd s
  have hs : shouldTriggerInterrupt (updateIntPin s).1 = shouldTriggerInterrupt s :=
    shouldTrigger_registers (by rw [h1])
  by_cases h : shouldTriggerInterrupt s = s.intPinAsserted <;>
    simp [h, h2, hs, List.getLastD]

lemma chain_events_spec (s1 : McpState) :
    ((updateIntPin s1).2 ++ (tryLoadNextRxFrame (updateIntPin s1).1).2).length ≤ 2 ∧
    ((updateIntPin s1).2 ++ (tryLoadNextRxFrame (updateIntPin s1).1).2).getLastD
        (shouldTriggerInterrupt (tryLoadNextRxFrame (updateIntPin s1).1).1) =
      shouldTriggerInterrupt (tryLoadNextRxFrame (updateIntPin s1).1).1 := by
  have hu1 := updateIntPin_fst s1
  have hu2 := updateIntPin_snd s1
  have hureg : (updateIntPin s1).1.registers = s1.registers := by rw [hu1]
  have huip : (updateIntPin s1).1.intPinAsserted = shouldTriggerInterrupt s1 := by rw [hu1]
  have hsu : shouldTriggerInterrupt (updateIntPin s1).1 = shouldTriggerInterrupt s1 :=
    shouldTrigger_registers hureg
  by_cases hflag : ((updateIntPin s1).1.registers CANINTF) &&& RX0IF = 0
  · cases hq : (updateIntPin s1).1.rxQueue with
    | nil =>
        rw [tryLoad_of_empty hq]
        by_cases h : shouldTriggerInterrupt s1 = s1.intPinAsserted <;>
          simp [hu2, h, hsu, List.getLastD]
    | cons f rest =>
        rw [tryLoad_of_cons hflag hq, loadFrameToRxb0_def]
        set sm : McpState :=
          { { (updateIntPin s1).1 with rxQueue := rest } with
              registers := loadRegs ((updateIntPin s1).1.registers) f } with hsm
        have hm1 := updateIntPin_fst sm
        have hm2 := updateIntPin_snd sm
        have hsm2 : shouldTriggerInterrupt (updateIntPin sm).1 = shouldTriggerInterrupt sm :=
          shouldTrigger_registers (by rw [hm1])
        have hmip : sm.intPinAsserted = shouldTriggerInterrupt s1 := huip
        rw [hm2, hsm2]
        by_cases hm : shouldTriggerInterrupt sm = sm.intPinAsserted
        · -- the inner updateIntPin emits nothing: the loaded frame left the
          -- masked interrupt value unchanged
          have hval : shouldTriggerInterrupt sm = shouldTriggerInterrupt s1 := by
            rw [hm, hmip]
          rw [if_pos hm, List.append_nil, hval]
          by_cases h : shouldTriggerInterrupt s1 = s1.intPinAsserted <;>
            simp [hu2, h, List.getLastD]
        · rw [if_neg hm]
          by_cases h : shouldTriggerInterrupt s1 = s1.intPinAsserted <;>
            simp [hu2, h, List.getLastD_concat]
  · rw [tryLoad_of_flag hflag]
    by_cases h : shouldTriggerInterrupt s1 = s1.intPinAsserted <;>
      simp [hu2, h, hsu, List.getLastD]

lemma emit_events_spec (s : McpState) :
    (emitCanFrame s).intEvents.length ≤ 2 ∧
    (emitCanFrame s).intEvents.getLastD (shouldTriggerInterrupt (emitCanFrame s).st) =
      shouldTriggerInterrupt (emitCanFrame s).st := by
  unfold emitCanFrame
  set sm : McpState :=
    { s with
        registers := writeReg s.registers CANINTF ((s.registers CANINTF) ||| TX0IF),
        state := SpiState.idle } with hsmdef
  have h1 := updateIntPin_fst sm
  have h2 := updateIntPin_snd sm
  have hs : shouldTriggerInterrupt (updateIntPin sm).1 = shouldTriggerInterrupt sm :=
    shouldTrigger_registers (by rw [h1])
  by_cases h : shouldTriggerInterrupt sm = sm.intPinAsserted <;>
    simp [h, h2, hs, List.getLastD]

lemma shouldTrigger_set_register (s : McpState) (x : Nat) :
    shouldTriggerInterrupt { s with register := x } = shouldTriggerInterrupt s := rfl

lemma shouldTrigger_set_state (s : McpState) (x : SpiState) :
    shouldTriggerInterrupt { s with state := x } = shouldTriggerInterrupt s := rfl

/-- C1 (amended): for every single input byte processed by `decode` — in
particular one that clears `CANINTF.RX0IF`, loads a queued RX frame and
re-sets `RX0IF` — the interrupt-change callback is invoked at most twice,
and the value reported by the last invocation (if any) equals the final
`(CANINTF & CANINTE) != 0` state after all side effects of that byte. -/
theorem C1_int_callback_amended (s : McpState) (b : Nat) :
    (decode s b).intEvents.length ≤ 2 ∧
    (decode s b).intEvents.getLastD (shouldTriggerInterrupt (decode s b).st) =
      shouldTriggerInterrupt (decode s b).st := by
  obtain ⟨st, reg, mask, th, td, dlc, regs, q, ip⟩ := s
  cases st
  case idle => simp [decode, handleInstruction, List.getLastD]
  case writeAddr => by_cases hb : b = TXB0_SIDH <;> simp [decode, hb, List.getLastD]
  case writeData =>
      by_cases hi : isInstruction b
      · simp [decode, hi, handleInstruction, List.getLastD]
      · by_cases hc : reg &&& 0xFF = CANINTF
        · simp only [decode, hi, Bool.false_eq_true, if_false, hc, if_true,
            shouldTrigger_set_register]
          exact chain_events_spec _
        · simp [decode, hi, hc, List.getLastD]
  case txHeader =>
      simp only [decode]
      by_cases h5 : (th ++ [b]).length = 5
      · rw [if_pos h5]
        by_cases h0 : (th ++ [b]).getD 4 0 &&& 0x0F = 0
        · rw [if_pos h0]
          exact emit_events_spec _
        · rw [if_neg h0]
          simp [List.getLastD]
      · rw [if_neg h5]
        simp [List.getLastD]
  case txData =>
      simp only [decode]
      by_cases hd : (td ++ [b]).length = dlc
      · rw [if_pos hd]
        exact emit_events_spec _
      · rw [if_neg hd]
        simp [List.getLastD]
  case readAddr => simp [decode, List.getLastD]
  case readData =>
      by_cases hi : isInstruction b
      · simp [decode, hi, handleInstruction, List.getLastD]
      · simp [decode, hi, List.getLastD]
  case bitModifyAddr => simp [decode, List.getLastD]
  case bitModifyMask => simp [decode, List.getLastD]
  case bitModifyData =>
      by_cases hc : reg &&& 0xFF = CANINTF
      · simp only [decode, hc, if_true, shouldTrigger_set_state]
        exact chain_events_spec _
      · simp [decode, hc, List.getLastD]
  case readStatusDummy => simp [decode, List.getLastD]

/-- Concrete decoder state for the C1 counterexample: a WRITE transaction
positioned at CANINTF, with RX0IF set and enabled, the INT pin previously
reported asserted, and one frame waiting in the RX queue. -/
def c1State : McpState :=
  { state := SpiState.writeData
    register := 0x2C
    bitModifyMask := 0
    txHeader := []
    txData := []
    txDlc := 0
    registers := fun a => if a = 0x2C then 1 else if a = 0x2B then 1 else 0
    rxQueue := [⟨5, 7, 1, [9]⟩]
    intPinAsserted := true }

/-- C1 (counterexample): one input byte 0x00, written to CANINTF, clears
RX0IF, loads the queued frame, re-sets RX0IF, and invokes the
interrupt-change callback twice (`false`, then `true`), refuting
"the interrupt-change callback is invoked at most once". -/
theorem C1_counterexample :
    (decode c1State 0).intEvents = [false, true] ∧
    1 < (decode c1State 0).intEvents.length := by
  constructor
  · decide
  · decide

lemma mod_two_testBit (x j : Nat) : (x % 2).testBit j = (decide (j = 0) && x.testBit 0) := by
  have h : x % 2 = (x.testBit 0).toNat := by
    rw [Nat.testBit_to_div_mod]
    rcases Nat.mod_two_eq_zero_or_one x with h | h <;> simp [h]
  rw [h]
  cases hb : x.testBit 0
  · simp
  · simp only [Bool.toNat_true, Bool.and_true]
    rw [show (1 : Nat) = 2 ^ 0 from rfl, Nat.testBit_two_pow]
    simp [eq_comm]

lemma piece_testBit (x k m j : Nat) :
    (((x >>> k) &&& 1) <<< m).testBit j = (decide (j = m) && x.testBit k) := by
  have h1 : (x >>> k) &&& 1 = (x.testBit k).toNat := by
    rw [Nat.and_one_is_mod, Nat.shiftRight_eq_div_pow, Nat.testBit_to_div_mod]
    rcases Nat.mod_two_eq_zero_or_one (x / 2 ^ k) with h | h <;> simp [h]
  rw [h1, Nat.shiftLeft_eq]
  cases hb : x.testBit k
  · simp [Nat.zero_testBit]
  · simp only [Bool.toNat_true, Nat.one_mul, Bool.and_true]
    rw [Nat.testBit_two_pow]
    simp [eq_comm]

lemma computeStatus_testBit (s : McpState) :
    (computeStatus s).testBit 0 = (s.registers CANINTF).testBit 0 ∧
    (computeStatus s).testBit 1 = (s.registers CANINTF).testBit 1 ∧
    (computeStatus s).testBit 2 = (s.registers TXB0CTRL).testBit 3 ∧
    (computeStatus s).testBit 3 = (s.registers CANINTF).testBit 2 ∧
    (computeStatus s).testBit 4 = (s.registers TXB1CTRL).testBit 3 ∧
    (computeStatus s).testBit 5 = (s.registers CANINTF).testBit 3 ∧
    (computeStatus s).testBit 6 = (s.registers TXB2CTRL).testBit 3 ∧
    (computeStatus s).testBit 7 = (s.registers CANINTF).testBit 4 := by
  unfold computeStatus
  refine ⟨?_, ?_, ?_, ?_, ?_, ?_, ?_, ?_⟩ <;>
    simp [Nat.testBit_or, piece_testBit, mod_two_testBit]

lemma decode_readStatus (s : McpState) (b : Nat)
    (hst : s.state = SpiState.readStatusDummy) :
    (decode s b).rx = computeStatus s := by
  obtain ⟨st, reg, mask, th, td, dlc, regs, q, ip⟩ := s
  obtain rfl : st = SpiState.readStatusDummy := hst
  rfl

/-- C4: for every register-file state, the byte returned by the
READ_STATUS instruction has bit 0 = CANINTF.RX0IF, bit 1 = CANINTF.RX1IF,
bit 2 = TXB0CTRL bit 3, bit 3 = CANINTF.TX0IF, bit 4 = TXB1CTRL bit 3,
bit 5 = CANINTF.TX1IF, bit 6 = TXB2CTRL bit 3, bit 7 = CANINTF.TX2IF; in
particular, after writing bytes with bit 3 set to TXB1CTRL and TXB2CTRL
directly, READ_STATUS returns a byte with bits 4 and 6 set. -/
theorem C4_read_status (s : McpState) (b v1 v2 : Nat)
    (hst : s.state = SpiState.readStatusDummy)
    (h1 : v1.testBit 3 = true) (h2 : v2.testBit 3 = true) :
    ((decode s b).rx.testBit 0 = (s.registers CANINTF).testBit 0 ∧
     (decode s b).rx.testBit 1 = (s.registers CANINTF).testBit 1 ∧
     (decode s b).rx.testBit 2 = (s.registers TXB0CTRL).testBit 3 ∧
     (decode s b).rx.testBit 3 = (s.registers CANINTF).testBit 2 ∧
     (decode s b).rx.testBit 4 = (s.registers TXB1CTRL).testBit 3 ∧
     (decode s b).rx.testBit 5 = (s.registers CANINTF).testBit 3 ∧
     (decode s b).rx.testBit 6 = (s.registers TXB2CTRL).testBit 3 ∧
     (decode s b).rx.testBit 7 = (s.registers CANINTF).testBit 4) ∧
    ((decode (setRegister (setRegister s TXB1CTRL v1) TXB2CTRL v2) b).rx.testBit 4 = true ∧
     (decode (setRegister (setRegister s TXB1CTRL v1) TXB2CTRL v2) b).rx.testBit 6 = true) := by
  have hmod : ∀ v : Nat, (v % 256).testBit 3 = v.testBit 3 := by
    intro v
    rw [show (256 : Nat) = 2 ^ 8 from rfl, Nat.testBit_mod_two_pow]
    simp
  constructor
  · rw [decode_readStatus s b hst]
    exact computeStatus_testBit s
  · set s2 := setRegister (setRegister s TXB1CTRL v1) TXB2CTRL v2 with hs2
    have hst2 : s2.state = SpiState.readStatusDummy := hst
    have e1 : s2.registers TXB1CTRL = v1 % 256 := by
      simp [hs2, setRegister, writeReg, TXB1CTRL, TXB2CTRL]
    have e2 : s2.registers TXB2CTRL = v2 % 256 := by
      simp [hs2, setRegister, writeReg, TXB2CTRL]
    rw [decode_readStatus s2 b hst2]
    have hc := computeStatus_testBit s2
    refine ⟨?_, ?_⟩
    · rw [hc.2.2.2.2.1, e1, hmod, h1]
    · rw [hc.2.2.2.2.2.2.1, e2, hmod, h2]

/-- Concrete state for the C4 witness: READ_STATUS dummy phase with a
register file holding 0x16 in CANINTF. -/
def c4State : McpState :=
  { initState with
      state := SpiState.readStatusDummy
      registers := fun a => if a = 0x2C then 0x16 else 0 }

/-- Witness for C4 at a concrete state, with 8 written to TXB1CTRL and
TXB2CTRL. -/
theorem C4_read_status_witness :
    ((decode c4State 0).rx.testBit 0 = (c4State.registers CANINTF).testBit 0 ∧
     (decode c4State 0).rx.testBit 1 = (c4State.registers CANINTF).testBit 1 ∧
     (decode c4State 0).rx.testBit 2 = (c4State.registers TXB0CTRL).testBit 3 ∧
     (decode c4State 0).rx.testBit 3 = (c4State.registers CANINTF).testBit 2 ∧
     (decode c4State 0).rx.testBit 4 = (c4State.registers TXB1CTRL).testBit 3 ∧
     (decode c4State 0).rx.testBit 5 = (c4State.registers CANINTF).testBit 3 ∧
     (decode c4State 0).rx.testBit 6 = (c4State.registers TXB2CTRL).testBit 3 ∧
     (decode c4State 0).rx.testBit 7 = (c4State.registers CANINTF).testBit 4) ∧
    ((decode (setRegister (setRegister c4State TXB1CTRL 8) TXB2CTRL 8) 0).rx.testBit 4 = true ∧
     (decode (setRegister (setRegister c4State TXB1CTRL 8) TXB2CTRL 8) 0).rx.testBit 6 = true) :=
  C4_read_status c4State 0 8 8 rfl (by decide) (by decide)

lemma and_eight_ne_zero {b : Nat} (h : b.testBit 3 = true) : b &&& 0x08 ≠ 0 := by
  have hb : (b &&& 0x08).testBit 3 = true := by
    rw [Nat.testBit_and, h]
    decide
  intro h0
  rw [h0] at hb
  simp [Nat.zero_testBit] at hb

lemma isInstruction_eq_false {b : Nat} (h : b.testBit 3 = true) :
    isInstruction b = false := by
  cases hi : isInstruction b
  · rfl
  · exfalso
    have hcase : ((b = 2 ∨ b = 3) ∨ b = 5) ∨ b = 160 := by
      simpa [isInstruction, INSTRUCTION_WRITE, INSTRUCTION_READ,
        INSTRUCTION_BIT_MODIFY, INSTRUCTION_READ_STATUS] using hi
    rcases hcase with ((rfl | rfl) | rfl) | rfl <;> exact absurd h (by decide)

/-- C7: a WRITE transaction data byte stored at TXB0CTRL (0x30) with bit 3
(TXREQ) set leaves the stored TXB0CTRL with bit 3 clear and every other
bit equal to the written byte's bit. -/
theorem C7_txreq_autoclear (s : McpState) (b : Nat)
    (hst : s.state = SpiState.writeData) (hreg : s.register = 0x30)
    (hb : b < 256) (hbit : b.testBit 3 = true) :
    ((decode s b).st.registers TXB0CTRL).testBit 3 = false ∧
    (∀ i, i ≠ 3 → ((decode s b).st.registers TXB0CTRL).testBit i = b.testBit i) := by
  obtain ⟨st, reg, mask, th, td, dlc, regs, q, ip⟩ := s
  obtain rfl : st = SpiState.writeData := hst
  obtain rfl : reg = 0x30 := hreg
  have hni := isInstruction_eq_false hbit
  have h8 := and_eight_ne_zero hbit
  have hmod : b % 256 = b := Nat.mod_eq_of_lt hb
  have hand : b &&& 0xF7 < 256 := lt_of_le_of_lt Nat.and_le_left hb
  have h48 : (48 : Nat) &&& 255 = 48 := by decide
  have hval : (decode
      ⟨SpiState.writeData, 0x30, mask, th, td, dlc, regs, q, ip⟩ b).st.registers TXB0CTRL
      = b &&& 0xF7 := by
    simp [decode, hni, h8, writeReg, TXB0CTRL, CANINTF, h48, hmod, Nat.mod_eq_of_lt hand]
  rw [hval]
  constructor
  · rw [Nat.testBit_and]
    have h247 : (0xF7 : Nat).testBit 3 = false := by decide
    simp [h247]
  · intro i hi
    rw [Nat.testBit_and]
    by_cases hsmall : i < 8
    · have h247 : (0xF7 : Nat).testBit i = true := by
        interval_cases i
        · decide
        · decide
        · decide
        · exact absurd rfl hi
        · decide
        · decide
        · decide
        · decide
      rw [h247, Bool.and_true]
    · have hlt : b < 2 ^ i :=
        lt_of_lt_of_le hb (le_trans (by norm_num)
          (Nat.pow_le_pow_right (by norm_num) (Nat.le_of_not_lt hsmall)))
      simp [Nat.testBit_lt_two_pow hlt]

/-- Concrete state for the C7 witness: WRITE data phase at address 0x30. -/
def c7State : McpState :=
  { initState with state := SpiState.writeData, register := 0x30 }

/-- Witness for C7: the byte 0x0F written to TXB0CTRL is stored with bit 3
clear, and bit 0 preserved. -/
theorem C7_txreq_autoclear_witness :
    ((decode c7State 0x0F).st.registers TXB0CTRL).testBit 3 = false ∧
    ((decode c7State 0x0F).st.registers TXB0CTRL).testBit 0 = (0x0F : Nat).testBit 0 :=
  ⟨(C7_txreq_autoclear c7State 0x0F rfl rfl (by decide) (by decide)).1,
   (C7_txreq_autoclear c7State 0x0F rfl rfl (by decide) (by decide)).2 0 (by decide)⟩

/-- C10: a BIT_MODIFY data byte targeting TXB0CTRL stores exactly
`(old & ~mask) | (data & mask)` — the TXREQ auto-clear does not apply to
the BIT_MODIFY path — so a mask and data that both have bit 3 set leave
the stored TXB0CTRL with bit 3 set. -/
theorem C10_bit_modify (s : McpState) (b : Nat)
    (hst : s.state = SpiState.bitModifyData) (hreg : s.register = 0x30)
    (hold : s.registers TXB0CTRL < 256) (hmask : s.bitModifyMask < 256) (hb : b < 256) :
    (decode s b).st.registers TXB0CTRL =
      ((s.registers TXB0CTRL) &&& (0xFF ^^^ s.bitModifyMask)) ||| (b &&& s.bitModifyMask) ∧
    (s.bitModifyMask.testBit 3 = true → b.testBit 3 = true →
      ((decode s b).st.registers TXB0CTRL).testBit 3 = true) := by
  obtain ⟨st, reg, mask, th, td, dlc, regs, q, ip⟩ := s
  obtain rfl : st = SpiState.bitModifyData := hst
  obtain rfl : reg = 0x30 := hreg
  dsimp only at hold hmask
  have h48 : (48 : Nat) &&& 255 = 48 := by decide
  have hmask' : mask &&& 0xFF = mask := by
    rw [and_255_eq_mod, Nat.mod_eq_of_lt hmask]
  have hnew : ((regs (48 : Nat)) &&& (0xFF ^^^ mask)) ||| (b &&& mask) < 256 := by
    rw [show (256 : Nat) = 2 ^ 8 from rfl]
    exact Nat.or_lt_two_pow (lt_of_le_of_lt Nat.and_le_left hold)
      (lt_of_le_of_lt Nat.and_le_left hb)
  have hval : (decode
      ⟨SpiState.bitModifyData, 0x30, mask, th, td, dlc, regs, q, ip⟩ b).st.registers TXB0CTRL
      = ((regs TXB0CTRL) &&& (0xFF ^^^ mask)) ||| (b &&& mask) := by
    simp [decode, writeReg, TXB0CTRL, CANINTF, h48, hmask', Nat.mod_eq_of_lt hnew]
  refine ⟨hval, ?_⟩
  intro hm hb3
  dsimp only at hm
  simp [hval, Nat.testBit_or, Nat.testBit_and, hm, hb3]

/-- Concrete state for the C10 witness: BIT_MODIFY data phase at address
0x30 with mask 0x0C and TXB0CTRL holding 0x03. -/
def c10State : McpState :=
  { initState with
      state := SpiState.bitModifyData
      register := 0x30
      bitModifyMask := 0x0C
      registers := fun a => if a = 0x30 then 0x03 else 0 }

/-- Witness for C10: BIT_MODIFY with mask 0x0C and data 0x0F stores 0x0F
and leaves TXREQ (bit 3) set. -/
theorem C10_bit_modify_witness :
    (decode c10State 0x0F).st.registers TXB0CTRL =
      ((c10State.registers TXB0CTRL) &&& (0xFF ^^^ c10State.bitModifyMask))
        ||| (0x0F &&& c10State.bitModifyMask) ∧
    ((decode c10State 0x0F).st.registers TXB0CTRL).testBit 3 = true :=
  ⟨(C10_bit_modify c10State 0x0F rfl rfl (by decide) (by decide) (by decide)).1,
   (C10_bit_modify c10State 0x0F rfl rfl (by decide) (by decide) (by decide)).2
     (by decide) (by decide)⟩

/-- C5: a frame whose decoded command is 0x0B (SWITCH) with data[4] in
{0, 1} makes the dispatcher call set-switch with id
`(32-bit big-endian data[0..3]) - 0x3000 + 1`, Straight for data[4] = 1
and Curve for data[4] = 0, and return exactly one immediate ACK (the
input frame with eid bit 16 set, same dlc and data) plus one identical
delayed ACK; every other recognized command yields one immediate ACK and
an empty delayed list. -/
theorem C5_switch_dispatch :
    (∀ (f : CanFrame) (lights : Nat → Bool),
      decodeCommand f = 0x0B →
      (f.data.getD 4 0 = 0 ∨ f.data.getD 4 0 = 1) →
      handleTxFrame f lights =
        ⟨⟨[⟨f.id, f.eid ||| 0x10000, f.dlc, f.data⟩],
          [⟨f.id, f.eid ||| 0x10000, f.dlc, f.data⟩]⟩,
         [ControllerCall.changeSwitchDirection ((readId f.data : Int) - 0x3000 + 1)
            (if f.data.getD 4 0 = 1 then SwitchDirection.Straight else SwitchDirection.Curve)],
         lights⟩) ∧
    decodeSwitchId 0x3000 = 1 ∧ decodeSwitchId 0x3009 = 10 ∧
    (∀ (f : CanFrame) (lights : Nat → Bool) (c : Nat),
      (c = 0x00 ∨ c = 0x04 ∨ c = 0x05 ∨ c = 0x06) →
      decodeCommand f = c →
      (handleTxFrame f lights).result =
        ⟨[⟨f.id, f.eid ||| 0x10000, f.dlc, f.data⟩], []⟩) := by
  refine ⟨?_, by decide, by decide, ?_⟩
  · intro f lights hc hp
    rcases hp with h0 | h1
    · simp [List.getD] at h0
      simp [handleTxFrame, hc, SYSTEM_CMD, SPEED_CMD, DIRECTION_CMD, LIGHT_CMD,
        SWITCH_CMD, handleSwitch, makeAck, decodeSwitchId, h0]
    · simp [List.getD] at h1
      simp [handleTxFrame, hc, SYSTEM_CMD, SPEED_CMD, DIRECTION_CMD, LIGHT_CMD,
        SWITCH_CMD, handleSwitch, makeAck, decodeSwitchId, h1]
  · intro f lights c hc hcmd
    rcases hc with rfl | rfl | rfl | rfl <;>
      [skip; skip; skip; skip] <;>
      (simp [handleTxFrame, hcmd, SYSTEM_CMD, SPEED_CMD, DIRECTION_CMD, LIGHT_CMD,
        SWITCH_CMD, handleSystem, handleSpeed, handleDirection, handleLight, makeAck]
       try (split <;> rfl))

/-- Witness for C5: SWITCH command for encoded id 0x3000 with data[4] = 1
(STRAIGHT). -/
theorem C5_switch_dispatch_witness :
    handleTxFrame ⟨5, 131072, 5, [0, 0, 0x30, 0, 1]⟩ (fun _ => false) =
      ⟨⟨[⟨5, 131072 ||| 0x10000, 5, [0, 0, 0x30, 0, 1]⟩],
        [⟨5, 131072 ||| 0x10000, 5, [0, 0, 0x30, 0, 1]⟩]⟩,
       [ControllerCall.changeSwitchDirection
          ((readId [0, 0, 0x30, 0, 1] : Int) - 0x3000 + 1)
          (if ([0, 0, 0x30, 0, 1] : List Nat).getD 4 0 = 1 then SwitchDirection.Straight
           else SwitchDirection.Curve)],
       fun _ => false⟩ :=
  C5_switch_dispatch.1 ⟨5, 131072, 5, [0, 0, 0x30, 0, 1]⟩ (fun _ => false)
    (by decide) (Or.inr (by decide))

/-- C9: a frame whose decoded command is 0x04 (SPEED) with dlc at most 4
is a speed query: one immediate ACK, no delayed frames, no controller
call, and the train-light map unchanged; only for dlc > 4 is the 16-bit
big-endian speed in data[4..5] read and set-speed invoked with the stored
light flag. -/
theorem C9_speed_query (f : CanFrame) (lights : Nat → Bool)
    (hcmd : decodeCommand f = 0x04) :
    (f.dlc ≤ 4 →
      handleTxFrame f lights =
        ⟨⟨[⟨f.id, f.eid ||| 0x10000, f.dlc, f.data⟩], []⟩, [], lights⟩) ∧
    (4 < f.dlc →
      (handleTxFrame f lights).calls =
        [ControllerCall.setTrainSpeed (readId f.data)
          (cs3SpeedToSim ((((f.data.getD 4 0) <<< 8) ||| (f.data.getD 5 0) : Nat) : Int))
          (lights (readId f.data))] ∧
      (handleTxFrame f lights).result =
        ⟨[⟨f.id, f.eid ||| 0x10000, f.dlc, f.data⟩], []⟩ ∧
      (handleTxFrame f lights).trainLights = lights) := by
  constructor
  · intro h4
    simp [handleTxFrame, hcmd, SYSTEM_CMD, SPEED_CMD, DIRECTION_CMD, LIGHT_CMD,
      SWITCH_CMD, handleSpeed, makeAck, h4]
  · intro h4
    have hn : ¬ f.dlc ≤ 4 := by omega
    refine ⟨?_, ?_, ?_⟩ <;>
      simp [handleTxFrame, hcmd, SYSTEM_CMD, SPEED_CMD, DIRECTION_CMD, LIGHT_CMD,
        SWITCH_CMD, handleSpeed, makeAck, hn, List.getD]

/-- Witness for C9: a SPEED frame with dlc 4 is ACKed with no action. -/
theorem C9_speed_query_witness :
    handleTxFrame ⟨2, 0, 4, [0, 0, 0, 1]⟩ (fun _ => false) =
      ⟨⟨[⟨2, 0 ||| 0x10000, 4, [0, 0, 0, 1]⟩], []⟩, [], fun _ => false⟩ :=
  (C9_speed_query ⟨2, 0, 4, [0, 0, 0, 1]⟩ (fun _ => false) (by decide)).1 (by decide)

/-- C6: the CS3-to-simulator speed mapping is `round(cs3/1000 * 14)`
clamped to 0..14, with `cs3SpeedToSim 0 = 0`, `500 ↦ 7`, `1000 ↦ 14`,
`1001 ↦ 14`, and every negative input mapping to 0. -/
theorem C6_speed_map :
    (∀ n : Int, cs3SpeedToSim n = max 0 (min 14 (jsRound ((n : ℚ) / 1000 * 14)))) ∧
    cs3SpeedToSim 0 = 0 ∧ cs3SpeedToSim 500 = 7 ∧ cs3SpeedToSim 1000 = 14 ∧
    cs3SpeedToSim 1001 = 14 ∧ (∀ n : Int, n < 0 → cs3SpeedToSim n = 0) := by
  have h1000 : (0 : ℚ) < 1000 := by norm_num
  have hgen : ∀ n : Int, cs3SpeedToSim n = max 0 (min 14 (jsRound ((n : ℚ) / 1000 * 14))) := by
    intro n
    unfold cs3SpeedToSim jsRound CS3_MAX_SPEED SIM_MAX_SPEED
    push_cast
    by_cases hn : n ≤ 0
    · rw [if_pos hn]
      have hq : (n : ℚ) ≤ 0 := by exact_mod_cast hn
      have hb : (n : ℚ) * 14 / 1000 ≤ 0 := by
        rw [div_le_iff₀ h1000]
        nlinarith
      rw [div_mul_eq_mul_div]
      have hflt : ⌊(n : ℚ) * 14 / 1000 + 1 / 2⌋ < 1 := by
        rw [Int.floor_lt]
        push_cast
        linarith
      omega
    · push_neg at hn
      by_cases hm : n ≥ 1000
      · rw [if_neg (by omega), if_pos hm]
        have hq : (1000 : ℚ) ≤ (n : ℚ) := by exact_mod_cast hm
        have hb : (14 : ℚ) ≤ (n : ℚ) * 14 / 1000 := by
          rw [le_div_iff₀ h1000]
          nlinarith
        rw [div_mul_eq_mul_div]
        have hfge : (14 : Int) ≤ ⌊(n : ℚ) * 14 / 1000 + 1 / 2⌋ := by
          rw [Int.le_floor]
          push_cast
          linarith
        omega
      · rw [if_neg (by omega), if_neg hm]
        push_neg at hm
        have hq1 : (1 : ℚ) ≤ (n : ℚ) := by exact_mod_cast hn
        have hq2 : (n : ℚ) ≤ 999 := by exact_mod_cast (by omega : n ≤ 999)
        have hb1 : (0 : ℚ) ≤ (n : ℚ) * 14 / 1000 := by positivity
        have hb2 : (n : ℚ) * 14 / 1000 < 29 / 2 := by
          rw [div_lt_iff₀ h1000]
          nlinarith
        rw [div_mul_eq_mul_div]
        have hge : (0 : Int) ≤ ⌊(n : ℚ) * 14 / 1000 + 1 / 2⌋ := by
          rw [Int.le_floor]
          push_cast
          linarith
        have hlt : ⌊(n : ℚ) * 14 / 1000 + 1 / 2⌋ < 15 := by
          rw [Int.floor_lt]
          push_cast
          linarith
        omega
  refine ⟨hgen, ?_, ?_, ?_, ?_, ?_⟩
  · norm_num [cs3SpeedToSim, jsRound, CS3_MAX_SPEED, SIM_MAX_SPEED]
  · norm_num [cs3SpeedToSim, jsRound, CS3_MAX_SPEED, SIM_MAX_SPEED]
  · norm_num [cs3SpeedToSim, jsRound, CS3_MAX_SPEED, SIM_MAX_SPEED]
  · norm_num [cs3SpeedToSim, jsRound, CS3_MAX_SPEED, SIM_MAX_SPEED]
  · intro n hn
    unfold cs3SpeedToSim
    rw [if_pos (by omega : n ≤ 0)]

/-- Witness for C6: the negative input -5 maps to 0. -/
theorem C6_speed_map_witness : cs3SpeedToSim (-5) = 0 :=
  C6_speed_map.2.2.2.2.2 (-5) (by decide)

lemma writeReg_ne {regs : Nat → Nat} {addr val a : Nat} (h : a ≠ addr % 256) :
    writeReg regs addr val a = regs a := by
  simp [writeReg, h]

lemma writeReg_eq {regs : Nat → Nat} {addr val a : Nat} (h : a = addr % 256) :
    writeReg regs addr val a = val % 256 := by
  simp [writeReg, h]

lemma storeRxData_out (data : List Nat) :
    ∀ (n i : Nat) (regs : Nat → Nat) (a : Nat),
      (∀ j, j < n → a ≠ (RXB0_SIDH + 5 + (i + j)) % 256) →
      storeRxData regs data n i a = regs a := by
  intro n
  induction n with
  | zero => intro i regs a _; rfl
  | succ m ih =>
      intro i regs a ha
      rw [storeRxData]
      rw [ih (i + 1) _ a ?out]
      case out =>
        intro j hj
        have h := ha (j + 1) (by omega)
        have e : i + (j + 1) = i + 1 + j := by omega
        rwa [e] at h
      have h0 := ha 0 (Nat.succ_pos m)
      rw [writeReg_ne]
      simpa using h0

lemma storeRxData_in (data : List Nat) :
    ∀ (n i j : Nat) (regs : Nat → Nat), j < n → RXB0_SIDH + 5 + i + n ≤ 256 →
      storeRxData regs data n i (RXB0_SIDH + 5 + (i + j)) = data.getD (i + j) 0 % 256 := by
  intro n
  induction n with
  | zero => intro i j regs hj _; omega
  | succ m ih =>
      intro i j regs hj hbound
      rw [storeRxData]
      simp only [RXB0_SIDH] at hbound ⊢
      cases j with
      | zero =>
          rw [storeRxData_out]
          · rw [writeReg_eq (by omega)]
            simp
          · intro j' hj'
            simp only [RXB0_SIDH]
            omega
      | succ j' =>
          have e : i + (j' + 1) = i + 1 + j' := by omega
          have h := ih (i + 1) j' (writeReg regs (RXB0_SIDH + 5 + i) (data.getD i 0))
            (by omega) (by simp only [RXB0_SIDH]; omega)
          simp only [RXB0_SIDH] at h
          rw [e, h, ← e]

lemma loadRegs_spec (regs : Nat → Nat) (f : CanFrame) (hdlc : f.dlc ≤ 8) :
    loadRegs regs f RXB0_SIDH = ((f.id >>> 3) &&& 0xFF) % 256 ∧
    loadRegs regs f (RXB0_SIDH + 1) =
      ((((f.id &&& 0x07) <<< 5) ||| 0x08 ||| ((f.eid >>> 16) &&& 0x03)) % 256) ∧
    loadRegs regs f (RXB0_SIDH + 2) = ((f.eid >>> 8) &&& 0xFF) % 256 ∧
    loadRegs regs f (RXB0_SIDH + 3) = (f.eid &&& 0xFF) % 256 ∧
    loadRegs regs f (RXB0_SIDH + 4) = f.dlc % 256 ∧
    (∀ j, j < f.dlc → loadRegs regs f (RXB0_SIDH + 5 + j) = f.data.getD j 0 % 256) := by
  unfold loadRegs
  refine ⟨?_, ?_, ?_, ?_, ?_, ?_⟩
  · rw [writeReg_ne (by decide),
      storeRxData_out _ _ _ _ _ (fun j hj => by simp only [RXB0_SIDH]; omega),
      writeReg_ne (by decide), writeReg_ne (by decide), writeReg_ne (by decide),
      writeReg_ne (by decide), writeReg_eq (by decide)]
  · rw [writeReg_ne (by decide),
      storeRxData_out _ _ _ _ _ (fun j hj => by simp only [RXB0_SIDH]; omega),
      writeReg_ne (by decide), writeReg_ne (by decide), writeReg_ne (by decide),
      writeReg_eq (by decide)]
  · rw [writeReg_ne (by decide),
      storeRxData_out _ _ _ _ _ (fun j hj => by simp only [RXB0_SIDH]; omega),
      writeReg_ne (by decide), writeReg_ne (by decide), writeReg_eq (by decide)]
  · rw [writeReg_ne (by decide),
      storeRxData_out _ _ _ _ _ (fun j hj => by simp only [RXB0_SIDH]; omega),
      writeReg_ne (by decide), writeReg_eq (by decide)]
  · rw [writeReg_ne (by decide),
      storeRxData_out _ _ _ _ _ (fun j hj => by simp only [RXB0_SIDH]; omega),
      writeReg_eq (by decide)]
  · intro j hj
    rw [writeReg_ne (by simp only [RXB0_SIDH, CANINTF]; omega)]
    have h := storeRxData_in f.data f.dlc 0 j
    simp only [Nat.zero_add] at h
    exact h _ hj (by simp only [RXB0_SIDH]; omega)

/-- Decoding the RXB0 register bytes back into a CAN frame with the
inverse of the spec §4.3 layout (spec-side definition, compared against
the engine's RXB0 encoder). -/
def rxb0Decode (regs : Nat → Nat) : CanFrame :=
  let b0 := regs RXB0_SIDH
  let b1 := regs (RXB0_SIDH + 1)
  let b2 := regs (RXB0_SIDH + 2)
  let b3 := regs (RXB0_SIDH + 3)
  let d := regs (RXB0_SIDH + 4)
  { id := (b0 <<< 3) ||| ((b1 >>> 5) &&& 0x07)
    eid := ((b1 &&& 0x03) <<< 16) ||| (b2 <<< 8) ||| b3
    dlc := d
    data := (List.range d).map (fun i => regs (RXB0_SIDH + 5 + i)) }

/-- C3: for every well-formed injected frame, after the engine loads it
into RXB0 and sets RX0IF, decoding the RXB0 register bytes with the
inverse layout reproduces the frame exactly. -/
theorem C3_rx_roundtrip (s : McpState) (f : CanFrame)
    (hid : f.id < 0x800) (heid : f.eid < 0x40000) (hdlc : f.dlc ≤ 8)
    (hlen : f.data.length = f.dlc) (hdata : ∀ x ∈ f.data, x < 256) :
    rxb0Decode ((loadFrameToRxb0 s f).1.registers) = f := by
  have hregs : (loadFrameToRxb0 s f).1.registers = loadRegs s.registers f := by
    rw [loadFrameToRxb0_def, updateIntPin_fst]
  obtain ⟨hb0, hb1, hb2, hb3, hb4, hdat⟩ := loadRegs_spec s.registers f hdlc
  have e0 : loadRegs s.registers f RXB0_SIDH = f.id / 8 := by
    rw [hb0, Nat.shiftRight_eq_div_pow, and_255_eq_mod]
    norm_num
    omega
  have e1 : loadRegs s.registers f (RXB0_SIDH + 1) =
      (f.id % 8) * 32 + 8 + f.eid / 65536 := by
    rw [hb1, and_7_eq_mod, and_3_eq_mod, Nat.shiftRight_eq_div_pow,
      shiftLeft_lor_of_lt (by norm_num : (8 : Nat) < 2 ^ 5)]
    norm_num
    rw [lor_of_lt 2 (by omega) (by omega)]
    omega
  have e2 : loadRegs s.registers f (RXB0_SIDH + 2) = f.eid / 256 % 256 := by
    rw [hb2, Nat.shiftRight_eq_div_pow, and_255_eq_mod]
    norm_num
  have e3 : loadRegs s.registers f (RXB0_SIDH + 3) = f.eid % 256 := by
    rw [hb3, and_255_eq_mod]
    omega
  have e4 : loadRegs s.registers f (RXB0_SIDH + 4) = f.dlc := by
    rw [hb4]
    omega
  rw [hregs]
  simp only [rxb0Decode, e0, e1, e2, e3, e4]
  conv_rhs => rw [show f = CanFrame.mk f.id f.eid f.dlc f.data from rfl]
  simp only [CanFrame.mk.injEq, true_and]
  refine ⟨?_, ?_, ?_⟩
  · -- id round-trip
    rw [Nat.shiftRight_eq_div_pow, and_7_eq_mod]
    norm_num
    have hv : ((f.id % 8) * 32 + 8 + f.eid / 65536) / 32 % 8 = f.id % 8 := by omega
    rw [hv, shiftLeft_lor_of_lt (by omega : f.id % 8 < 2 ^ 3)]
    omega
  · -- eid round-trip
    rw [and_3_eq_mod]
    have hv1 : ((f.id % 8) * 32 + 8 + f.eid / 65536) % 4 = f.eid / 65536 := by omega
    rw [hv1]
    simp only [Nat.shiftLeft_eq]
    norm_num
    rw [show f.eid / 65536 * 65536 ||| f.eid / 256 % 256 * 256 =
          f.eid / 65536 * 65536 + f.eid / 256 % 256 * 256 from
        lor_of_lt 16 (by omega) (by omega),
      show f.eid / 65536 * 65536 + f.eid / 256 % 256 * 256 ||| f.eid % 256 =
          f.eid / 65536 * 65536 + f.eid / 256 % 256 * 256 + f.eid % 256 from
        lor_of_lt 8 (by omega) (by omega)]
    omega
  · -- data round-trip
    apply List.ext_getElem
    · simp [hlen]
    · intro i h1 h2
      simp only [List.getElem_map, List.getElem_range]
      have hd := hdat i (by simpa using h1)
      rw [hd]
      have hbyte : f.data.getD i 0 < 256 := getD_lt_of_forall hdata i
      rw [Nat.mod_eq_of_lt hbyte, List.getD_eq_getElem?_getD, List.getElem?_eq_getElem h2]
      rfl

/-- Witness for C3: the frame (id 0x123, eid 0x2ABCD, dlc 2,
data [17, 254]) round-trips through RXB0. -/
theorem C3_rx_roundtrip_witness :
    rxb0Decode ((loadFrameToRxb0 initState ⟨0x123, 0x2ABCD, 2, [17, 254]⟩).1.registers) =
      ⟨0x123, 0x2ABCD, 2, [17, 254]⟩ :=
  C3_rx_roundtrip initState ⟨0x123, 0x2ABCD, 2, [17, 254]⟩ (by decide) (by decide)
    (by decide) (by decide) (by decide)

/-- C2 (counterexample): a TX write whose 5th header byte has low nibble 9
emits a frame with dlc = 9 (outside 0..8), and a subsequent dlc = 0
header emits a frame whose data still holds the previous transmission's
byte, so its data length (1) differs from its dlc (0). -/
theorem C2_counterexample :
    (runCollect initState [2, 0x31, 0, 0, 0, 0, 9, 1, 2, 3, 4, 5, 6, 7, 8, 9]).2 =
      [⟨0, 0, 9, [1, 2, 3, 4, 5, 6, 7, 8, 9]⟩] ∧
    (runCollect initState [2, 0x31, 0, 0, 0, 0, 1, 0xAA, 2, 0x31, 0, 0, 0, 0, 0]).2 =
      [⟨0, 0, 1, [0xAA]⟩, ⟨0, 0, 0, [0xAA]⟩] :=
  ⟨by decide, by decide⟩

lemma emitCanFrame_frame (s : McpState) :
    (emitCanFrame s).frame =
      some ⟨(s.txHeader.getD 0 0 <<< 3) ||| ((s.txHeader.getD 1 0 >>> 5) &&& 0x07),
            ((s.txHeader.getD 1 0 &&& 0x03) <<< 16) ||| (s.txHeader.getD 2 0 <<< 8)
              ||| s.txHeader.getD 3 0,
            s.txDlc, s.txData⟩ := rfl

lemma emit_frame_bounds (s : McpState) (hhdr : ∀ x ∈ s.txHeader, x < 256) (f : CanFrame)
    (hf : (emitCanFrame s).frame = some f) :
    f.id < 0x800 ∧ f.eid < 0x40000 ∧ f.dlc = s.txDlc ∧ f.data = s.txData := by
  rw [emitCanFrame_frame] at hf
  obtain rfl := (Option.some.inj hf).symm
  have h0 : s.txHeader.getD 0 0 < 256 := getD_lt_of_forall hhdr 0
  have h2 : s.txHeader.getD 2 0 < 256 := getD_lt_of_forall hhdr 2
  refine ⟨?_, ?_, rfl, rfl⟩
  · rw [show (0x800 : Nat) = 2 ^ 11 from rfl]
    exact Nat.or_lt_two_pow
      (by rw [Nat.shiftLeft_eq]; omega)
      (lt_of_le_of_lt Nat.and_le_right (by norm_num))
  · rw [show (0x40000 : Nat) = 2 ^ 18 from rfl]
    refine Nat.or_lt_two_pow (Nat.or_lt_two_pow ?_ ?_) ?_
    · rw [Nat.shiftLeft_eq]
      have := @Nat.and_le_right (s.txHeader.getD 1 0) 3
      omega
    · rw [Nat.shiftLeft_eq]
      omega
    · have h3 : s.txHeader.getD 3 0 < 256 := getD_lt_of_forall hhdr 3
      omega

/-- C2 (amended): every CAN frame surfaced by a decode step from a state
whose TX accumulators hold bytes (and whose txDlc is a low nibble,
0..15) has id in 0..0x7FF and eid in 0..0x3FFFF; its dlc is in 0..15
(the 4-bit extraction does not clamp to 8), and when dlc is non-zero the
data length equals dlc (a dlc = 0 frame may carry the previous
transmission's stale data bytes). -/
theorem C2_tx_frame_bounds (s : McpState) (b : Nat) (f : CanFrame)
    (hhdr : ∀ x ∈ s.txHeader, x < 256) (hb : b < 256) (hdlc : s.txDlc ≤ 15)
    (hf : (decode s b).frame = some f) :
    f.id < 0x800 ∧ f.eid < 0x40000 ∧ f.dlc ≤ 15 ∧
    (f.dlc ≠ 0 → f.data.length = f.dlc) := by
  obtain ⟨st, reg, mask, th, td, dlc, regs, q, ip⟩ := s
  dsimp only at hhdr hdlc
  cases st
  case idle => simp [decode, handleInstruction] at hf
  case writeAddr =>
      by_cases h : b = TXB0_SIDH <;> simp [decode, h] at hf
  case writeData =>
      by_cases hi : isInstruction b
      · simp [decode, hi, handleInstruction] at hf
      · by_cases hc : reg &&& 0xFF = CANINTF <;> simp [decode, hi, hc] at hf
  case txHeader =>
      simp only [decode] at hf
      by_cases h5 : (th ++ [b]).length = 5
      · rw [if_pos h5] at hf
        by_cases h0 : (th ++ [b]).getD 4 0 &&& 0x0F = 0
        · rw [if_pos h0] at hf
          have hmem : ∀ x ∈ th ++ [b], x < 256 := by
            intro x hx
            rcases List.mem_append.mp hx with h | h
            · exact hhdr x h
            · simp at h
              omega
          obtain ⟨hid, heid, hd, _⟩ := emit_frame_bounds _ hmem f hf
          have hfd : f.dlc = 0 := by rw [hd]; exact h0
          exact ⟨hid, heid, by omega, fun hne => absurd hfd hne⟩
        · rw [if_neg h0] at hf
          simp at hf
      · rw [if_neg h5] at hf
        simp at hf
  case txData =>
      simp only [decode] at hf
      by_cases hdd : (td ++ [b]).length = dlc
      · rw [if_pos hdd] at hf
        obtain ⟨hid, heid, hd, hdata⟩ := emit_frame_bounds _ hhdr f hf
        refine ⟨hid, heid, ?_, ?_⟩
        · rw [hd]
          exact hdlc
        · intro _
          rw [hdata, hd]
          exact hdd
      · rw [if_neg hdd] at hf
        simp at hf
  case readAddr => simp [decode] at hf
  case readData =>
      by_cases hi : isInstruction b
      · simp [decode, hi, handleInstruction] at hf
      · simp [decode, hi] at hf
  case bitModifyAddr => simp [decode] at hf
  case bitModifyMask => simp [decode] at hf
  case bitModifyData =>
      by_cases hc : reg &&& 0xFF = CANINTF <;> simp [decode, hc] at hf
  case readStatusDummy => simp [decode] at hf

/-- Concrete state for the C2 witness: one data byte away from emitting a
dlc = 1 frame. -/
def c2State : McpState :=
  { initState with
      state := SpiState.txData
      txHeader := [4, 0, 0, 0, 1]
      txData := []
      txDlc := 1 }

/-- Witness for C2 (amended): the frame emitted from `c2State` on byte 7
is (id 32, eid 0, dlc 1, data [7]) and satisfies the bounds. -/
theorem C2_tx_frame_bounds_witness :
    (32 : Nat) < 0x800 ∧ (0 : Nat) < 0x40000 ∧ (1 : Nat) ≤ 15 ∧
    ((1 : Nat) ≠ 0 → ([7] : List Nat).length = 1) :=
  C2_tx_frame_bounds c2State 7 ⟨32, 0, 1, [7]⟩ (by decide) (by decide) (by decide) (by decide)

lemma emitCanFrame_st_registers (s : McpState) :
    (emitCanFrame s).st.registers =
      writeReg s.registers CANINTF ((s.registers CANINTF) ||| TX0IF) := by
  simp only [emitCanFrame]
  rw [updateIntPin_fst]

lemma txData_run (data : List Nat) :
    ∀ (s : McpState),
      s.state = SpiState.txData →
      0 < data.length →
      s.txData.length + data.length = s.txDlc →
      s.txDlc ≤ 15 →
      (∀ x ∈ data, x < 256) →
      (∃ f : CanFrame, (runCollect s data).2 = [f] ∧ f.dlc = s.txDlc ∧
          f.data = s.txData ++ data) ∧
      (∀ j, j < data.length →
          (runCollect s data).1.registers (0x36 + s.txData.length + j) = data.getD j 0) ∧
      (∀ a, a < 256 → (a < 0x36 + s.txData.length ∨ 0x45 ≤ a) → a ≠ 0x2C →
          (runCollect s data).1.registers a = s.registers a) := by
  induction data with
  | nil => intro s _ h0 _ _ _; simp at h0
  | cons b rest ih =>
      intro s hst hpos hsum hdlc hbytes
      obtain ⟨st, reg, mask, th, td, dlc, regs, q, ip⟩ := s
      obtain rfl : st = SpiState.txData := hst
      dsimp only at hsum hdlc ⊢
      have hb : b < 256 := hbytes b (by simp)
      have haddr : (0x31 + 5 + td.length) &&& 0xFF = 0x36 + td.length := by
        rw [and_255_eq_mod]
        omega
      cases rest with
      | nil =>
          -- the byte completes the frame: emission
          have hlen : (td ++ [b]).length = dlc := by
            simp at hsum ⊢
            omega
          have e : decode ⟨SpiState.txData, reg, mask, th, td, dlc, regs, q, ip⟩ b
              = emitCanFrame ⟨SpiState.txData, reg, mask, th, td ++ [b], dlc,
                  writeReg regs ((0x31 + 5 + td.length) &&& 0xFF) b, q, ip⟩ := by
            simp only [decode, TXB0_SIDH]
            rw [if_pos hlen]
          have erun : runCollect ⟨SpiState.txData, reg, mask, th, td, dlc, regs, q, ip⟩ [b]
              = ((emitCanFrame ⟨SpiState.txData, reg, mask, th, td ++ [b], dlc,
                  writeReg regs ((0x31 + 5 + td.length) &&& 0xFF) b, q, ip⟩).st,
                 (emitCanFrame ⟨SpiState.txData, reg, mask, th, td ++ [b], dlc,
                  writeReg regs ((0x31 + 5 + td.length) &&& 0xFF) b, q, ip⟩).frame.toList) := by
            simp [runCollect, e]
          rw [erun]
          refine ⟨⟨_, by rw [emitCanFrame_frame]; rfl, rfl, rfl⟩, ?_, ?_⟩
          · intro j hj
            have hj0 : j = 0 := by simpa using hj
            subst hj0
            rw [emitCanFrame_st_registers]
            dsimp only
            rw [writeReg_ne (by simp only [CANINTF]; omega)]
            rw [writeReg_eq (by rw [haddr]; omega)]
            simpa using Nat.mod_eq_of_lt hb
          · intro a ha hrange hcanintf
            rw [emitCanFrame_st_registers]
            dsimp only
            rw [writeReg_ne (by simp only [CANINTF]; omega)]
            rw [writeReg_ne (by rw [haddr]; omega)]
      | cons b2 rest2 =>
          have hne : ¬ (td ++ [b]).length = dlc := by
            simp at hsum ⊢
            omega
          have e : decode ⟨SpiState.txData, reg, mask, th, td, dlc, regs, q, ip⟩ b
              = ⟨0, none, ⟨SpiState.txData, reg, mask, th, td ++ [b], dlc,
                  writeReg regs ((0x31 + 5 + td.length) &&& 0xFF) b, q, ip⟩, []⟩ := by
            simp only [decode, TXB0_SIDH]
            rw [if_neg hne]
          have erun : runCollect ⟨SpiState.txData, reg, mask, th, td, dlc, regs, q, ip⟩
              (b :: b2 :: rest2)
              = runCollect ⟨SpiState.txData, reg, mask, th, td ++ [b], dlc,
                  writeReg regs ((0x31 + 5 + td.length) &&& 0xFF) b, q, ip⟩ (b2 :: rest2) := by
            conv_lhs => rw [runCollect]
            rw [e]
            rfl
          rw [erun]
          obtain ⟨⟨f, hf1, hf2, hf3⟩, hin, hout⟩ :=
            ih ⟨SpiState.txData, reg, mask, th, td ++ [b], dlc,
                  writeReg regs ((0x31 + 5 + td.length) &&& 0xFF) b, q, ip⟩
              rfl (by simp) (by simp at hsum ⊢; omega) hdlc
              (fun x hx => hbytes x (by simp at hx ⊢; tauto))
          dsimp only at hin hout hf2 hf3
          refine ⟨⟨f, hf1, hf2, by rw [hf3]; simp⟩, ?_, ?_⟩
          · intro j hj
            cases j with
            | zero =>
                simp only [Nat.add_zero]
                have := hout (0x36 + td.length) (by omega)
                  (by left; simp only [List.length_append, List.length_cons,
                        List.length_nil]; omega)
                  (by omega)
                rw [this]
                rw [writeReg_eq (by rw [haddr]; omega)]
                simpa using Nat.mod_eq_of_lt hb
            | succ j' =>
                have hlen2 : (td ++ [b]).length = td.length + 1 := by simp
                have h := hin j' (by simp at hj ⊢; omega)
                rw [hlen2] at h
                have eaddr : 0x36 + td.length + (j' + 1) = 0x36 + (td.length + 1) + j' := by
                  omega
                rw [eaddr, h]
                simp
          · intro a ha hrange hcanintf
            have hlen2 : (td ++ [b]).length = td.length + 1 := by simp
            have h := hout a ha (by rw [hlen2]; rcases hrange with h | h <;> omega) hcanintf
            rw [h]
            rw [writeReg_ne (by rw [haddr]; rcases hrange with h | h <;> omega)]

/-- C8: a complete WRITE transaction to TXB0SIDH (bytes
`0x02, 0x31, h0..h4` and the DLC-many data bytes) emits exactly one
frame, and immediately afterwards the register-file bytes at
0x31..0x35 equal the five accumulated header bytes and the bytes at
0x36..0x36+DLC-1 equal the emitted frame's data bytes. -/
theorem C8_register_mirror (s : McpState) (h0 h1 h2 h3 h4 : Nat) (data : List Nat)
    (hs : s.state = SpiState.idle)
    (hb0 : h0 < 256) (hb1 : h1 < 256) (hb2 : h2 < 256) (hb3 : h3 < 256) (hb4 : h4 < 256)
    (hdb : ∀ x ∈ data, x < 256)
    (hlen : data.length = h4 &&& 0x0F) :
    ∃ f : CanFrame,
      (runCollect s ([2, 0x31, h0, h1, h2, h3, h4] ++ data)).2 = [f] ∧
      f.dlc = h4 &&& 0x0F ∧
      (f.dlc ≠ 0 → f.data = data) ∧
      (runCollect s ([2, 0x31, h0, h1, h2, h3, h4] ++ data)).1.registers 0x31 = h0 ∧
      (runCollect s ([2, 0x31, h0, h1, h2, h3, h4] ++ data)).1.registers 0x32 = h1 ∧
      (runCollect s ([2, 0x31, h0, h1, h2, h3, h4] ++ data)).1.registers 0x33 = h2 ∧
      (runCollect s ([2, 0x31, h0, h1, h2, h3, h4] ++ data)).1.registers 0x34 = h3 ∧
      (runCollect s ([2, 0x31, h0, h1, h2, h3, h4] ++ data)).1.registers 0x35 = h4 ∧
      (∀ j, j < f.dlc →
        (runCollect s ([2, 0x31, h0, h1, h2, h3, h4] ++ data)).1.registers (0x36 + j)
          = f.data.getD j 0) := by
  obtain ⟨st, reg, mask, th, td, dlc, regs, q, ip⟩ := s
  obtain rfl : st = SpiState.idle := hs
  have da : decode ⟨SpiState.idle, reg, mask, th, td, dlc, regs, q, ip⟩ 2
      = ⟨0, none, ⟨SpiState.writeAddr, reg, mask, th, td, dlc, regs, q, ip⟩, []⟩ := rfl
  have db : decode ⟨SpiState.writeAddr, reg, mask, th, td, dlc, regs, q, ip⟩ 0x31
      = ⟨0, none, ⟨SpiState.txHeader, 0x31, mask, [], td, dlc, regs, q, ip⟩, []⟩ := rfl
  have dc : decode ⟨SpiState.txHeader, 0x31, mask, [], td, dlc, regs, q, ip⟩ h0
      = ⟨0, none, ⟨SpiState.txHeader, 0x31, mask, [h0], td, dlc,
          writeReg regs 0x31 h0, q, ip⟩, []⟩ := by
    simp [decode, TXB0_SIDH, show (49 : Nat) &&& 255 = 49 from by decide]
  have dd : decode ⟨SpiState.txHeader, 0x31, mask, [h0], td, dlc,
        writeReg regs 0x31 h0, q, ip⟩ h1
      = ⟨0, none, ⟨SpiState.txHeader, 0x31, mask, [h0, h1], td, dlc,
          writeReg (writeReg regs 0x31 h0) 0x32 h1, q, ip⟩, []⟩ := by
    simp [decode, TXB0_SIDH, show (50 : Nat) &&& 255 = 50 from by decide]
  have de : decode ⟨SpiState.txHeader, 0x31, mask, [h0, h1], td, dlc,
        writeReg (writeReg regs 0x31 h0) 0x32 h1, q, ip⟩ h2
      = ⟨0, none, ⟨SpiState.txHeader, 0x31, mask, [h0, h1, h2], td, dlc,
          writeReg (writeReg (writeReg regs 0x31 h0) 0x32 h1) 0x33 h2, q, ip⟩, []⟩ := by
    simp [decode, TXB0_SIDH, show (51 : Nat) &&& 255 = 51 from by decide]
  have df : decode ⟨SpiState.txHeader, 0x31, mask, [h0, h1, h2], td, dlc,
        writeReg (writeReg (writeReg regs 0x31 h0) 0x32 h1) 0x33 h2, q, ip⟩ h3
      = ⟨0, none, ⟨SpiState.txHeader, 0x31, mask, [h0, h1, h2, h3], td, dlc,
          writeReg (writeReg (writeReg (writeReg regs 0x31 h0) 0x32 h1) 0x33 h2) 0x34 h3,
          q, ip⟩, []⟩ := by
    simp [decode, TXB0_SIDH, show (52 : Nat) &&& 255 = 52 from by decide]
  have e6 : runCollect ⟨SpiState.idle, reg, mask, th, td, dlc, regs, q, ip⟩
      ([2, 0x31, h0, h1, h2, h3, h4] ++ data)
      = runCollect ⟨SpiState.txHeader, 0x31, mask, [h0, h1, h2, h3], td, dlc,
          writeReg (writeReg (writeReg (writeReg regs 0x31 h0) 0x32 h1) 0x33 h2) 0x34 h3,
          q, ip⟩ (h4 :: data) := by
    simp only [List.cons_append]
    conv_lhs => rw [runCollect]
    rw [da]
    conv_lhs => rw [runCollect]
    rw [db]
    conv_lhs => rw [runCollect]
    rw [dc]
    conv_lhs => rw [runCollect]
    rw [dd]
    conv_lhs => rw [runCollect]
    rw [de]
    conv_lhs => rw [runCollect]
    rw [df]
    rfl
  rw [e6]
  by_cases hz : h4 &&& 0x0F = 0
  · -- DLC = 0: the 5th header byte emits immediately
    have hdata0 : data = [] := by
      rw [hz] at hlen
      exact List.eq_nil_of_length_eq_zero hlen
    subst hdata0
    have hc5 : (([h0, h1, h2, h3] : List Nat) ++ [h4]).length = 5 := by simp
    have hc0 : (([h0, h1, h2, h3] : List Nat) ++ [h4]).getD 4 0 &&& 0x0F = 0 := by
      simpa using hz
    have e7 : decode ⟨SpiState.txHeader, 0x31, mask, [h0, h1, h2, h3], td, dlc,
          writeReg (writeReg (writeReg (writeReg regs 0x31 h0) 0x32 h1) 0x33 h2) 0x34 h3,
          q, ip⟩ h4
        = emitCanFrame ⟨SpiState.txHeader, 0x31, mask, [h0, h1, h2, h3, h4], td,
            h4 &&& 0x0F,
            writeReg (writeReg (writeReg (writeReg (writeReg regs 0x31 h0) 0x32 h1)
              0x33 h2) 0x34 h3) 0x35 h4, q, ip⟩ := by
      simp only [decode, TXB0_SIDH]
      rw [if_pos hc5, if_pos hc0]
      simp [List.getD, show (53 : Nat) &&& 255 = 53 from by decide]
    have erun : runCollect ⟨SpiState.txHeader, 0x31, mask, [h0, h1, h2, h3], td, dlc,
          writeReg (writeReg (writeReg (writeReg regs 0x31 h0) 0x32 h1) 0x33 h2) 0x34 h3,
          q, ip⟩ [h4]
        = ((emitCanFrame ⟨SpiState.txHeader, 0x31, mask, [h0, h1, h2, h3, h4], td,
            h4 &&& 0x0F,
            writeReg (writeReg (writeReg (writeReg (writeReg regs 0x31 h0) 0x32 h1)
              0x33 h2) 0x34 h3) 0x35 h4, q, ip⟩).st,
           (emitCanFrame ⟨SpiState.txHeader, 0x31, mask, [h0, h1, h2, h3, h4], td,
            h4 &&& 0x0F,
            writeReg (writeReg (writeReg (writeReg (writeReg regs 0x31 h0) 0x32 h1)
              0x33 h2) 0x34 h3) 0x35 h4, q, ip⟩).frame.toList) := by
      simp [runCollect, e7]
    rw [erun]
    refine ⟨⟨(h0 <<< 3) ||| ((h1 >>> 5) &&& 0x07),
             ((h1 &&& 0x03) <<< 16) ||| (h2 <<< 8) ||| h3, h4 &&& 0x0F, td⟩,
      by rw [emitCanFrame_frame]; rfl, rfl, fun hne => absurd hz hne, ?_, ?_, ?_, ?_, ?_, ?_⟩
    · rw [emitCanFrame_st_registers]
      dsimp only
      rw [writeReg_ne (by decide), writeReg_ne (by decide), writeReg_ne (by decide),
        writeReg_ne (by decide), writeReg_ne (by decide), writeReg_eq (by decide)]
      exact Nat.mod_eq_of_lt hb0
    · rw [emitCanFrame_st_registers]
      dsimp only
      rw [writeReg_ne (by decide), writeReg_ne (by decide), writeReg_ne (by decide),
        writeReg_ne (by decide), writeReg_eq (by decide)]
      exact Nat.mod_eq_of_lt hb1
    · rw [emitCanFrame_st_registers]
      dsimp only
      rw [writeReg_ne (by decide), writeReg_ne (by decide), writeReg_ne (by decide),
        writeReg_eq (by decide)]
      exact Nat.mod_eq_of_lt hb2
    · rw [emitCanFrame_st_registers]
      dsimp only
      rw [writeReg_ne (by decide), writeReg_ne (by decide), writeReg_eq (by decide)]
      exact Nat.mod_eq_of_lt hb3
    · rw [emitCanFrame_st_registers]
      dsimp only
      rw [writeReg_ne (by decide), writeReg_eq (by decide)]
      exact Nat.mod_eq_of_lt hb4
    · intro j hj
      dsimp only at hj
      omega
  · -- DLC ≠ 0: transition to TxData and run the data phase
    have hc5 : (([h0, h1, h2, h3] : List Nat) ++ [h4]).length = 5 := by simp
    have hc0 : ¬ ((([h0, h1, h2, h3] : List Nat) ++ [h4]).getD 4 0 &&& 0x0F = 0) := by
      simpa using hz
    have e7 : decode ⟨SpiState.txHeader, 0x31, mask, [h0, h1, h2, h3], td, dlc,
          writeReg (writeReg (writeReg (writeReg regs 0x31 h0) 0x32 h1) 0x33 h2) 0x34 h3,
          q, ip⟩ h4
        = ⟨0, none, ⟨SpiState.txData, 0x31, mask, [h0, h1, h2, h3, h4], [],
            h4 &&& 0x0F,
            writeReg (writeReg (writeReg (writeReg (writeReg regs 0x31 h0) 0x32 h1)
              0x33 h2) 0x34 h3) 0x35 h4, q, ip⟩, []⟩ := by
      simp only [decode, TXB0_SIDH]
      rw [if_pos hc5, if_neg hc0]
      simp [List.getD, show (53 : Nat) &&& 255 = 53 from by decide]
    have erun : runCollect ⟨SpiState.txHeader, 0x31, mask, [h0, h1, h2, h3], td, dlc,
          writeReg (writeReg (writeReg (writeReg regs 0x31 h0) 0x32 h1) 0x33 h2) 0x34 h3,
          q, ip⟩ (h4 :: data)
        = runCollect ⟨SpiState.txData, 0x31, mask, [h0, h1, h2, h3, h4], [],
            h4 &&& 0x0F,
            writeReg (writeReg (writeReg (writeReg (writeReg regs 0x31 h0) 0x32 h1)
              0x33 h2) 0x34 h3) 0x35 h4, q, ip⟩ data := by
      conv_lhs => rw [runCollect]
      rw [e7]
      rfl
    rw [erun]
    obtain ⟨⟨f, hf1, hf2, hf3⟩, hin, hout⟩ :=
      txData_run data ⟨SpiState.txData, 0x31, mask, [h0, h1, h2, h3, h4], [],
            h4 &&& 0x0F,
            writeReg (writeReg (writeReg (writeReg (writeReg regs 0x31 h0) 0x32 h1)
              0x33 h2) 0x34 h3) 0x35 h4, q, ip⟩
        rfl (by omega) (by simpa using hlen)
        (le_trans Nat.and_le_right (by norm_num)) hdb
    dsimp only at hf2 hf3 hin hout
    simp only [List.length_nil, Nat.add_zero, List.nil_append] at hin hout hf3
    refine ⟨f, hf1, hf2, fun _ => hf3, ?_, ?_, ?_, ?_, ?_, ?_⟩
    · rw [hout 0x31 (by norm_num) (by norm_num) (by norm_num)]
      rw [writeReg_ne (by decide), writeReg_ne (by decide), writeReg_ne (by decide),
        writeReg_ne (by decide), writeReg_eq (by decide)]
      exact Nat.mod_eq_of_lt hb0
    · rw [hout 0x32 (by norm_num) (by norm_num) (by norm_num)]
      rw [writeReg_ne (by decide), writeReg_ne (by decide), writeReg_ne (by decide),
        writeReg_eq (by decide)]
      exact Nat.mod_eq_of_lt hb1
    · rw [hout 0x33 (by norm_num) (by norm_num) (by norm_num)]
      rw [writeReg_ne (by decide), writeReg_ne (by decide), writeReg_eq (by decide)]
      exact Nat.mod_eq_of_lt hb2
    · rw [hout 0x34 (by norm_num) (by norm_num) (by norm_num)]
      rw [writeReg_ne (by decide), writeReg_eq (by decide)]
      exact Nat.mod_eq_of_lt hb3
    · rw [hout 0x35 (by norm_num) (by norm_num) (by norm_num)]
      rw [writeReg_eq (by decide)]
      exact Nat.mod_eq_of_lt hb4
    · intro j hj
      rw [hf2] at hj
      rw [hin j (by omega), hf3]

/-- Witness for C8: the transaction writing header bytes 1,2,3,4 with DLC
nibble 2 (0x12) and data [0xAB, 0xCD], from the initial state. -/
theorem C8_register_mirror_witness :
    ∃ f : CanFrame,
      (runCollect initState ([2, 0x31, 1, 2, 3, 4, 0x12] ++ [0xAB, 0xCD])).2 = [f] ∧
      f.dlc = 0x12 &&& 0x0F ∧
      (f.dlc ≠ 0 → f.data = [0xAB, 0xCD]) ∧
      (runCollect initState ([2, 0x31, 1, 2, 3, 4, 0x12] ++ [0xAB, 0xCD])).1.registers 0x31 = 1 ∧
      (runCollect initState ([2, 0x31, 1, 2, 3, 4, 0x12] ++ [0xAB, 0xCD])).1.registers 0x32 = 2 ∧
      (runCollect initState ([2, 0x31, 1, 2, 3, 4, 0x12] ++ [0xAB, 0xCD])).1.registers 0x33 = 3 ∧
      (runCollect initState ([2, 0x31, 1, 2, 3, 4, 0x12] ++ [0xAB, 0xCD])).1.registers 0x34 = 4 ∧
      (runCollect initState ([2, 0x31, 1, 2, 3, 4, 0x12] ++ [0xAB, 0xCD])).1.registers 0x35 = 0x12 ∧
      (∀ j, j < f.dlc →
        (runCollect initState ([2, 0x31, 1, 2, 3, 4, 0x12] ++ [0xAB, 0xCD])).1.registers (0x36 + j)
          = f.data.getD j 0) :=
  C8_register_mirror initState 1 2 3 4 0x12 [0xAB, 0xCD] rfl (by decide) (by decide)
    (by decide) (by decide) (by decide) (by decide) (by decide)
